import Mathlib

/-!
Verification of the keychain interpreter in src/qutebrowser/commands/keys.py
against its design specification.

The embedding below translates the source file directly.  Parts of the
repository that the source file calls into but that are not part of the
fragment (the base class KeyParser in qutebrowser.utils.keyparser and the
command executor CommandParser in qutebrowser.commands.parsers) are modelled
from the specification; each such definition carries a doc comment starting
with the words Modelled from the spec.
-/

/-- Model of a Python dict from strings to strings as an insertion-ordered,
key-unique association list.  Used for the two binding tables of the
keyparser, self._bindings and self._modifier_bindings. -/
def dictGet (d : List (String × String)) (k : String) : Option String :=
  (d.find? (fun p => p.1 == k)).map (fun p => p.2)

/-- Model of the Python dict assignment d[k] = v: overwrite the entry for k
in place if one exists, otherwise append a new entry. -/
def dictInsert : List (String × String) → String → String → List (String × String)
  | [], k, v => [(k, v)]
  | p :: rest, k, v => if p.1 == k then (k, v) :: rest else p :: dictInsert rest k v

/-- Removal of leading and trailing characters selected by a predicate,
the behaviour of the Python str.strip family. -/
def pyStripChars (bad : Char → Bool) (s : String) : String :=
  String.mk (((s.toList.dropWhile bad).reverse.dropWhile bad).reverse)

/-- Python str.strip() with no argument: remove surrounding whitespace. -/
def pyStrip (s : String) : String := pyStripChars Char.isWhitespace s

/-- Python str.strip applied to the at sign, as in key.strip in read_config:
removes all leading and all trailing at-sign characters. -/
def stripAt (s : String) : String := pyStripChars (fun c => c == '@') s

/-- The classification test of read_config: the key-spec starts with the at
sign and ends with the at sign (Python startswith and endswith). -/
def wrappedAt (key : String) : Bool :=
  key.toList.head? == some '@' && key.toList.getLast? == some '@'

/-- The mutable state of a CommandKeyParser: the pending keystring, the
pending count digits, and the two binding tables. -/
structure KPState where
  keystring : String
  count : String
  bindings : List (String × String)
  modifier_bindings : List (String × String)
deriving DecidableEq

/-- A freshly constructed keyparser: empty keystring, empty count and empty
binding tables. -/
def emptyKP : KPState := ⟨"", "", [], []⟩

/-- The result of one read_config call: the updated table state together
with the number of times the warning observer was invoked. -/
structure ReadConfigOut where
  state : KPState
  warnings : Nat
deriving DecidableEq

/-- The loop of CommandKeyParser.read_config over the (key, cmd) pairs of
the keybind configuration section: a key-spec wrapped in at signs is
stripped, normalized and stored in the modifier table; every other key-spec
is stored verbatim in the plain table.  The normalization function
self._normalize_keystr lives in the base class outside the fragment, so it
is a parameter. -/
def readConfigLoop (norm : String → String) : List (String × String) → KPState → KPState
  | [], st => st
  | (key, cmd) :: rest, st =>
    if wrappedAt key then
      readConfigLoop norm rest
        { st with modifier_bindings := dictInsert st.modifier_bindings (norm (stripAt key)) cmd }
    else
      readConfigLoop norm rest
        { st with bindings := dictInsert st.bindings key cmd }

/-- CommandKeyParser.read_config: warn once when the section is empty, then
run the registration loop over the section items.  Note that the prior
table contents are not cleared before the loop. -/
def read_config (norm : String → String) (sect : List (String × String))
    (st : KPState) : ReadConfigOut :=
  { state := readConfigLoop norm sect st
    warnings := if sect.isEmpty then 1 else 0 }

/-- The last command registered in the plain table for lookup key k by a
section: the last non-wrapped pair (key, cmd) of the section with key = k,
if any. -/
def lastPlain : List (String × String) → String → Option String
  | [], _ => none
  | (key, cmd) :: rest, k =>
    match lastPlain rest k with
    | some v => some v
    | none => if !wrappedAt key && key == k then some cmd else none

/-- The last command registered in the modifier table for lookup key k by a
section: the last wrapped pair (key, cmd) of the section whose stripped and
normalized key equals k, if any. -/
def lastMod (norm : String → String) : List (String × String) → String → Option String
  | [], _ => none
  | (key, cmd) :: rest, k =>
    match lastMod norm rest k with
    | some v => some v
    | none => if wrappedAt key && norm (stripAt key) == k then some cmd else none

/-- Left-biased choice on optional commands. -/
def oelse (a b : Option String) : Option String :=
  match a with
  | some v => some v
  | none => b

theorem dictGet_nil (k : String) : dictGet [] k = none := rfl

theorem dictGet_cons (p : String × String) (t : List (String × String)) (k : String) :
    dictGet (p :: t) k = if p.1 == k then some p.2 else dictGet t k := by
  cases h : p.1 == k <;> simp [dictGet, List.find?, h]

theorem dictGet_insert (d : List (String × String)) (k v k' : String) :
    dictGet (dictInsert d k v) k' = if k' = k then some v else dictGet d k' := by
  induction d with
  | nil =>
    rw [show dictInsert [] k v = [(k, v)] from rfl, dictGet_cons, dictGet_nil]
    by_cases h : k' = k
    · subst h; simp
    · have hb : (k == k') = false := by
        simp [beq_iff_eq]
        exact fun hh => h hh.symm
      simp [hb, h]
  | cons p t ih =>
    by_cases hpk : p.1 = k
    · rw [show dictInsert (p :: t) k v = (k, v) :: t from by simp [dictInsert, hpk]]
      rw [dictGet_cons, dictGet_cons]
      by_cases h : k' = k
      · subst h; simp
      · have hb : (k == k') = false := by
          simp [beq_iff_eq]; exact fun hh => h hh.symm
        have hb2 : (p.1 == k') = false := by
          simp [beq_iff_eq, hpk]; exact fun hh => h hh.symm
        simp [hb, hb2, h]
    · rw [show dictInsert (p :: t) k v = p :: dictInsert t k v from by
        simp [dictInsert, beq_iff_eq, hpk]]
      rw [dictGet_cons, dictGet_cons, ih]
      by_cases h2 : p.1 = k'
      · have hk : ¬ k' = k := fun hh => hpk (h2.trans hh)
        simp [h2, hk]
      · have hb2 : (p.1 == k') = false := by simp [beq_iff_eq, h2]
        simp [hb2]

theorem loop_bindings_lookup (norm : String → String) (sect : List (String × String)) :
    ∀ (st : KPState) (k : String),
      dictGet (readConfigLoop norm sect st).bindings k
        = oelse (lastPlain sect k) (dictGet st.bindings k) := by
  induction sect with
  | nil => intro st k; simp [readConfigLoop, lastPlain, oelse]
  | cons p rest ih =>
    intro st k
    obtain ⟨key, cmd⟩ := p
    cases hw : wrappedAt key with
    | true =>
      rw [show readConfigLoop norm ((key, cmd) :: rest) st
            = readConfigLoop norm rest
                { st with modifier_bindings :=
                    dictInsert st.modifier_bindings (norm (stripAt key)) cmd } from by
          simp [readConfigLoop, hw]]
      rw [ih]
      cases hl : lastPlain rest k <;> simp [lastPlain, hl, hw, oelse]
    | false =>
      rw [show readConfigLoop norm ((key, cmd) :: rest) st
            = readConfigLoop norm rest
                { st with bindings := dictInsert st.bindings key cmd } from by
          simp [readConfigLoop, hw]]
      rw [ih]
      dsimp only
      rw [dictGet_insert]
      cases hl : lastPlain rest k with
      | none =>
        by_cases hk : k = key
        · subst hk
          simp [lastPlain, hl, hw, oelse]
        · have hb : (key == k) = false := by
            simp [beq_iff_eq]; exact fun hh => hk hh.symm
          simp [lastPlain, hl, hw, oelse, hk, hb]
      | some v => simp [lastPlain, hl, oelse]

theorem loop_modifier_lookup (norm : String → String) (sect : List (String × String)) :
    ∀ (st : KPState) (k : String),
      dictGet (readConfigLoop norm sect st).modifier_bindings k
        = oelse (lastMod norm sect k) (dictGet st.modifier_bindings k) := by
  induction sect with
  | nil => intro st k; simp [readConfigLoop, lastMod, oelse]
  | cons p rest ih =>
    intro st k
    obtain ⟨key, cmd⟩ := p
    cases hw : wrappedAt key with
    | true =>
      rw [show readConfigLoop norm ((key, cmd) :: rest) st
            = readConfigLoop norm rest
                { st with modifier_bindings :=
                    dictInsert st.modifier_bindings (norm (stripAt key)) cmd } from by
          simp [readConfigLoop, hw]]
      rw [ih]
      dsimp only
      rw [dictGet_insert]
      cases hl : lastMod norm rest k with
      | none =>
        by_cases hk : k = norm (stripAt key)
        · subst hk
          simp [lastMod, hl, hw, oelse]
        · have hb : (norm (stripAt key) == k) = false := by
            simp [beq_iff_eq]; exact fun hh => hk hh.symm
          simp [lastMod, hl, hw, oelse, hk, hb]
      | some v => simp [lastMod, hl, oelse]
    | false =>
      rw [show readConfigLoop norm ((key, cmd) :: rest) st
            = readConfigLoop norm rest
                { st with bindings := dictInsert st.bindings key cmd } from by
          simp [readConfigLoop, hw]]
      rw [ih]
      cases hl : lastMod norm rest k <;> simp [lastMod, hl, hw, oelse]

theorem oelse_idem (a b : Option String) : oelse a (oelse a b) = oelse a b := by
  cases a <;> rfl

theorem oelse_isSome (a b : Option String) :
    (oelse a b).isSome = (a.isSome || b.isSome) := by
  cases a <;> simp [oelse]

/-- The outcome the external command executor reports for one dispatched
command string, as listed in the external-interface contract of the spec. -/
inductive Outcome
  | success
  | unknownCommand
  | argCountMismatch
  | otherFailure
deriving DecidableEq

/-- The exceptions of qutebrowser.commands.parsers visible in keys.py. -/
inductive Exc
  | NoSuchCommandError
  | ArgumentCountError
  | OtherError
deriving DecidableEq

/-- What one call of the executor did: the exception it raised if any, the
user-visible errors it showed itself, and whether the command ran. -/
structure RunResult where
  raised : Option Exc
  errors : List String
  executed : Bool
deriving DecidableEq

/-- Modelled from the spec: the external command executor CommandParser.run
of qutebrowser.commands.parsers, which is not part of the fragment.  Per
the spec it takes a command string with an optional count and reports one
of four outcomes (success, unknown-command, argument-count-mismatch,
other-failure).  When ignore_exc is set (spec: fail_silently is false) an
unknown command is surfaced by the executor as a user-visible error rather
than raised; otherwise it is raised to the caller, which swallows it.  An
argument-count mismatch is always reported to the caller by exception,
which per the spec turns it into a partial-command status-line fill
regardless of fail_silently.  Any other failure propagates unchanged. -/
def commandparser_run (outcome : Outcome) (cmdstr : String) (_count : Option Nat)
    (ignore_exc : Bool) : RunResult :=
  match outcome with
  | .success => ⟨none, [], true⟩
  | .unknownCommand =>
      if ignore_exc then ⟨none, [cmdstr ++ ": no such command"], false⟩
      else ⟨some .NoSuchCommandError, [], false⟩
  | .argCountMismatch => ⟨some .ArgumentCountError, [], false⟩
  | .otherFailure => ⟨some .OtherError, [], false⟩

/-- The observable effect of one dispatch: texts pushed to the status line
via the set_cmd_text signal, user-visible errors, an exception escaping the
dispatch, and whether the command ran. -/
structure DispatchResult where
  statusTexts : List String
  errors : List String
  propagated : Option Exc
  executed : Bool
deriving DecidableEq

/-- CommandKeyParser._run_or_fill: run the command in cmdstr, pass on a
NoSuchCommandError, and on an ArgumentCountError emit set_cmd_text with a
colon, the command string and a trailing space.  Other exceptions are not
caught and propagate. -/
def run_or_fill (outcome : Outcome) (cmdstr : String) (count : Option Nat)
    (ignore_exc : Bool) : DispatchResult :=
  match (commandparser_run outcome cmdstr count ignore_exc).raised with
  | some Exc.NoSuchCommandError =>
      ⟨[], (commandparser_run outcome cmdstr count ignore_exc).errors, none,
        (commandparser_run outcome cmdstr count ignore_exc).executed⟩
  | some Exc.ArgumentCountError =>
      ⟨[":" ++ cmdstr ++ " "], (commandparser_run outcome cmdstr count ignore_exc).errors,
        none, (commandparser_run outcome cmdstr count ignore_exc).executed⟩
  | some e =>
      ⟨[], (commandparser_run outcome cmdstr count ignore_exc).errors, some e,
        (commandparser_run outcome cmdstr count ignore_exc).executed⟩
  | none =>
      ⟨[], (commandparser_run outcome cmdstr count ignore_exc).errors, none,
        (commandparser_run outcome cmdstr count ignore_exc).executed⟩

/-- CommandKeyParser.execute: handle a completed keychain by calling
_run_or_fill with ignore_exc set to False (the configuration in which an
unknown command raises to _run_or_fill and is silently swallowed there,
i.e. the spec name fail_silently is true). -/
def execute (outcome : Outcome) (cmdstr : String) (count : Option Nat) : DispatchResult :=
  run_or_fill outcome cmdstr count false

/-- A single keypress event as the interpreter sees it: its printable text
and whether it carries a modifier. -/
structure KeyEvent where
  text : String
  modifier : Bool
deriving DecidableEq

/-- The observable effect of handling one keypress: the successor state,
texts pushed to the status line, the execute calls made (command string
with optional count), and warning-observer invocations. -/
structure HandleResult where
  state : KPState
  statusTexts : List String
  dispatches : List (String × Option Nat)
  warnings : Nat
deriving DecidableEq

/-- Possible chars for starting a commandline input (module attribute). -/
def STARTCHARS : String := ":/?"

/-- CommandKeyParser.supports_count is True. -/
def supports_count : Bool := true

/-- Python str.isdigit: nonempty and all characters digits. -/
def isDigitStr (s : String) : Bool := !s.toList.isEmpty && s.toList.all Char.isDigit

/-- Modelled from the spec: the pending count digits converted to the
optional repeat count handed to command execution (absent when no digits
were typed). -/
def countVal (s : String) : Option Nat :=
  if s.toList.isEmpty then none
  else some (s.toList.foldl (fun n c => 10 * n + (c.toNat - 48)) 0)

/-- The accumulated keystring is a strict prefix of at least one bound
keychain, so the accumulator should keep waiting. -/
def chainContinues (d : List (String × String)) (ks : String) : Bool :=
  d.any (fun p => ks.toList.isPrefixOf p.1.toList && ks != p.1)

/-- Modelled from the spec: the base class handler
KeyParser._handle_single_key of qutebrowser.utils.keyparser, which is not
part of the fragment.  Per the accumulator contract: a bare digit is
appended to the pending count when counts are supported; otherwise the text
joins the keystring, an exact match against the plain table dispatches the
bound command with the pending count and resets, a strict prefix of a
longer binding keeps accumulating, and a dead end silently resets. -/
def keyParserHandleSingleKey (st : KPState) (e : KeyEvent) : HandleResult :=
  if isDigitStr (pyStrip e.text) && supports_count then
    ⟨{ st with count := st.count ++ pyStrip e.text }, [], [], 0⟩
  else
    match dictGet st.bindings (st.keystring ++ pyStrip e.text) with
    | some cmd => ⟨{ st with keystring := "", count := "" }, [], [(cmd, countVal st.count)], 0⟩
    | none =>
        if chainContinues st.bindings (st.keystring ++ pyStrip e.text) then
          ⟨{ st with keystring := st.keystring ++ pyStrip e.text }, [], [], 0⟩
        else
          ⟨{ st with keystring := "", count := "" }, [], [], 0⟩

/-- CommandKeyParser._handle_single_key: when no keystring is pending and
the stripped text equals one of the STARTCHARS, emit it via set_cmd_text
and return without touching the accumulator; otherwise defer to the base
class handler. -/
def cmdHandleSingleKey (st : KPState) (e : KeyEvent) : HandleResult :=
  if st.keystring == "" && STARTCHARS.toList.any (fun c => pyStrip e.text == String.mk [c]) then
    ⟨st, [pyStrip e.text], [], 0⟩
  else keyParserHandleSingleKey st e

/-- Modelled from the spec: the top level key handling of the base class,
not part of the fragment.  A keypress carrying a modifier is normalized and
matched against the modifier table directly (dispatch on an exact match,
silent reset otherwise); a plain keypress goes through the single-key
handler above. -/
def handleKey (norm : String → String) (st : KPState) (e : KeyEvent) : HandleResult :=
  if e.modifier then
    match dictGet st.modifier_bindings (norm (pyStrip e.text)) with
    | some cmd => ⟨{ st with keystring := "", count := "" }, [], [(cmd, countVal st.count)], 0⟩
    | none => ⟨{ st with keystring := "", count := "" }, [], [], 0⟩
  else cmdHandleSingleKey st e

/-- Claim C1 exactly as stated: after any read_config call, a lookup in
either table succeeds precisely when the looked-up keystring is derived
from a key-spec of the new configuration input, for every prior state. -/
def fullReplacement (norm : String → String) : Prop :=
  ∀ (st : KPState) (sect : List (String × String)) (k : String),
    ((dictGet (read_config norm sect st).state.bindings k).isSome
        = (lastPlain sect k).isSome)
    ∧ ((dictGet (read_config norm sect st).state.modifier_bindings k).isSome
        = (lastMod norm sect k).isSome)

/-- Claim C1, counterexample.  The claim as stated is false on the code:
read_config never clears the tables, so a binding present before the call
and absent from the new configuration input still looks up successfully
afterwards.  Concretely, with prior plain table holding the pair (x, cmd)
and an empty new configuration, the lookup of x still succeeds although x
is derived from no key-spec of the new input. -/
theorem read_config_not_full_replacement : ¬ fullReplacement id := by
  intro h
  have h2 := (h ⟨"", "", [("x", "cmd")], []⟩ [] "x").1
  revert h2
  decide

/-- Claim C1, amended: read_config merges rather than replaces.  After the
call, a plain lookup succeeds exactly when the keystring is derived from a
non-wrapped key-spec of the new configuration input or was already bound
before the call, and likewise for the modifier table with stripped and
normalized wrapped key-specs; prior bindings are never removed. -/
theorem read_config_merges :
    ∀ (norm : String → String) (sect : List (String × String)) (st : KPState) (k : String),
      ((dictGet (read_config norm sect st).state.bindings k).isSome
          = ((lastPlain sect k).isSome || (dictGet st.bindings k).isSome))
      ∧ ((dictGet (read_config norm sect st).state.modifier_bindings k).isSome
          = ((lastMod norm sect k).isSome || (dictGet st.modifier_bindings k).isSome)) := by
  intro norm sect st k
  constructor
  · rw [show (read_config norm sect st).state = readConfigLoop norm sect st from rfl,
      loop_bindings_lookup, oelse_isSome]
  · rw [show (read_config norm sect st).state = readConfigLoop norm sect st from rfl,
      loop_modifier_lookup, oelse_isSome]

/-- Claim C2: execute, the handler for a completed keychain, dispatches via
_run_or_fill with ignore_exc set to False, the silent-fail configuration
(spec name fail_silently = true); under it an unknown-command outcome is
swallowed: no visible error, no status-line text, nothing propagated. -/
theorem execute_dispatches_silently :
    ∀ (o : Outcome) (cmdstr : String) (count : Option Nat),
      execute o cmdstr count = run_or_fill o cmdstr count false
      ∧ (o = Outcome.unknownCommand →
          (execute o cmdstr count).errors = []
          ∧ (execute o cmdstr count).statusTexts = []
          ∧ (execute o cmdstr count).propagated = none) := by
  intro o c n
  refine ⟨rfl, ?_⟩
  rintro rfl
  exact ⟨rfl, rfl, rfl⟩

theorem execute_dispatches_silently_witness :
    execute Outcome.unknownCommand "foo" none
        = run_or_fill Outcome.unknownCommand "foo" none false
      ∧ ((execute Outcome.unknownCommand "foo" none).errors = []
          ∧ (execute Outcome.unknownCommand "foo" none).statusTexts = []
          ∧ (execute Outcome.unknownCommand "foo" none).propagated = none) :=
  ⟨(execute_dispatches_silently Outcome.unknownCommand "foo" none).1,
    (execute_dispatches_silently Outcome.unknownCommand "foo" none).2 rfl⟩

/-- Claim C3: an unknown-command outcome under non-silent dispatch
(ignore_exc = true, spec name fail_silently = false) is surfaced as exactly
one user-visible error and updates no status line, while under silent
dispatch (ignore_exc = false, fail_silently = true) it produces no visible
error, no status-line update and nothing propagated. -/
theorem unknown_command_surfacing :
    ∀ (cmdstr : String) (count : Option Nat),
      (run_or_fill Outcome.unknownCommand cmdstr count true).errors
          = [cmdstr ++ ": no such command"]
      ∧ (run_or_fill Outcome.unknownCommand cmdstr count true).statusTexts = []
      ∧ (run_or_fill Outcome.unknownCommand cmdstr count false).errors = []
      ∧ (run_or_fill Outcome.unknownCommand cmdstr count false).statusTexts = []
      ∧ (run_or_fill Outcome.unknownCommand cmdstr count false).propagated = none :=
  fun _ _ => ⟨rfl, rfl, rfl, rfl, rfl⟩

/-- Claim C4: an argument-count mismatch, for every command string, count
and either value of ignore_exc, yields exactly one status-line request
holding a colon, the command string and one trailing space, with no error
and nothing propagated; for the command string open the status line
receives exactly the text colon-open-space. -/
theorem arg_count_mismatch_fills_statusline :
    ∀ (cmdstr : String) (count : Option Nat) (ignore_exc : Bool),
      run_or_fill Outcome.argCountMismatch cmdstr count ignore_exc
          = ⟨[":" ++ cmdstr ++ " "], [], none, false⟩
      ∧ (run_or_fill Outcome.argCountMismatch "open" count ignore_exc).statusTexts
          = [":open "] :=
  fun _ _ _ => ⟨rfl, rfl⟩

/-- Claim C5: for every configuration input processed by read_config, a
plain lookup after the call is decided by the last non-wrapped key-spec
with that exact text (verbatim, falling back to the prior plain table), and
a modifier lookup by the last wrapped key-spec whose text with the at-sign
delimiters stripped and then normalized equals the looked-up key (falling
back to the prior modifier table): wrapped specs reach only the modifier
table and non-wrapped specs only the plain table. -/
theorem read_config_table_split :
    ∀ (norm : String → String) (sect : List (String × String)) (st : KPState) (k : String),
      dictGet (read_config norm sect st).state.bindings k
          = oelse (lastPlain sect k) (dictGet st.bindings k)
      ∧ dictGet (read_config norm sect st).state.modifier_bindings k
          = oelse (lastMod norm sect k) (dictGet st.modifier_bindings k) :=
  fun norm sect st k =>
    ⟨loop_bindings_lookup norm sect st k, loop_modifier_lookup norm sect st k⟩

/-- Claim C6: a keypress whose text is one of the reserved characters,
arriving while the accumulated keystring is empty, is intercepted: exactly
that character is emitted to the status line, no dispatch happens, the
warning observer is not invoked and the whole parser state, in particular
the still-empty keystring, is unchanged. -/
theorem startchar_intercepted_when_idle :
    ∀ (cnt : String) (b m : List (String × String)) (e : KeyEvent),
      (e.text = ":" ∨ e.text = "/" ∨ e.text = "?") →
      cmdHandleSingleKey ⟨"", cnt, b, m⟩ e = ⟨⟨"", cnt, b, m⟩, [e.text], [], 0⟩ := by
  intro cnt b m e h
  obtain ⟨t, md⟩ := e
  simp only at h
  rcases h with h | h | h <;> subst h <;> rfl

theorem startchar_intercepted_when_idle_witness :
    cmdHandleSingleKey ⟨"", "", [], []⟩ ⟨":", false⟩
      = ⟨⟨"", "", [], []⟩, [":"], [], 0⟩ :=
  startchar_intercepted_when_idle "" [] [] ⟨":", false⟩ (Or.inl rfl)

/-- Claim C7: a keypress whose text is one of the reserved characters,
arriving while the accumulated keystring is non-empty, is not intercepted:
handling it is exactly what the base class keychain accumulation does with
it, and that accumulation emits nothing to the status line. -/
theorem startchar_falls_through_when_accumulating :
    ∀ (ks cnt : String) (b m : List (String × String)) (e : KeyEvent),
      ks ≠ "" →
      (e.text = ":" ∨ e.text = "/" ∨ e.text = "?") →
      cmdHandleSingleKey ⟨ks, cnt, b, m⟩ e = keyParserHandleSingleKey ⟨ks, cnt, b, m⟩ e
      ∧ (keyParserHandleSingleKey ⟨ks, cnt, b, m⟩ e).statusTexts = [] := by
  intro ks cnt b m e h _
  constructor
  · have hks : (ks == "") = false := by
      cases hb : ks == "" with
      | false => rfl
      | true => exact absurd (eq_of_beq hb) h
    unfold cmdHandleSingleKey
    simp [hks]
  · unfold keyParserHandleSingleKey
    split
    · rfl
    · split
      · rfl
      · split <;> rfl

theorem startchar_falls_through_when_accumulating_witness :
    cmdHandleSingleKey ⟨"g", "", [], []⟩ ⟨":", false⟩
        = keyParserHandleSingleKey ⟨"g", "", [], []⟩ ⟨":", false⟩
      ∧ (keyParserHandleSingleKey ⟨"g", "", [], []⟩ ⟨":", false⟩).statusTexts = [] :=
  startchar_falls_through_when_accumulating "g" "" [] [] ⟨":", false⟩ (by decide) (Or.inl rfl)

/-- Claim C8: running read_config twice in succession on the same
configuration input leaves both tables with exactly the lookup behaviour
they had after the first run, for every key string. -/
theorem read_config_idempotent :
    ∀ (norm : String → String) (sect : List (String × String)) (st : KPState) (k : String),
      dictGet (read_config norm sect (read_config norm sect st).state).state.bindings k
          = dictGet (read_config norm sect st).state.bindings k
      ∧ dictGet (read_config norm sect (read_config norm sect st).state).state.modifier_bindings k
          = dictGet (read_config norm sect st).state.modifier_bindings k := by
  intro norm sect st k
  constructor
  · rw [show ∀ s, (read_config norm sect s).state = readConfigLoop norm sect s from fun _ => rfl,
      show (read_config norm sect st).state = readConfigLoop norm sect st from rfl,
      loop_bindings_lookup, loop_bindings_lookup, oelse_idem]
  · rw [show ∀ s, (read_config norm sect s).state = readConfigLoop norm sect s from fun _ => rfl,
      show (read_config norm sect st).state = readConfigLoop norm sect st from rfl,
      loop_modifier_lookup, loop_modifier_lookup, oelse_idem]

/-- Claim C9: read_config on an empty configuration section completes and
invokes the warning observer exactly once, leaves a fresh parser with empty
tables, and with empty tables every subsequent keypress, modifier or not
and from any accumulator state, dispatches no command and invokes the
warning observer zero times. -/
theorem empty_config_warns_once_no_dispatch :
    ∀ (norm : String → String) (e : KeyEvent) (ks cnt : String),
      (read_config norm [] emptyKP).warnings = 1
      ∧ (read_config norm [] emptyKP).state = emptyKP
      ∧ (handleKey norm ⟨ks, cnt, [], []⟩ e).dispatches = []
      ∧ (handleKey norm ⟨ks, cnt, [], []⟩ e).warnings = 0 := by
  intro norm e ks cnt
  obtain ⟨t, md⟩ := e
  refine ⟨rfl, rfl, ?_, ?_⟩ <;>
    cases md <;>
      first
        | rfl
        | · unfold handleKey cmdHandleSingleKey keyParserHandleSingleKey
            split
            · rfl
            · split
              · rfl
              · split <;> rfl

/-- Claim C10: read_config classifies a key-spec as a modifier spec exactly
when its first and last characters are both the at sign; such a spec is
registered only in the modifier table, under the normalization of the
key-spec with all leading and trailing at signs removed.  In particular
the one-character spec consisting of a single at sign is stored under the
normalization of the empty string, and repeated delimiters as in the spec
at-at-a-at-at are all removed, storing under the normalization of a. -/
theorem at_wrapped_classification :
    ∀ (norm : String → String) (key cmd : String),
      wrappedAt key = true →
      (read_config norm [(key, cmd)] emptyKP).state.bindings = []
      ∧ (read_config norm [(key, cmd)] emptyKP).state.modifier_bindings
          = [(norm (stripAt key), cmd)] := by
  intro norm key cmd h
  constructor <;>
    simp [read_config, readConfigLoop, h, emptyKP, dictInsert]

theorem at_wrapped_classification_witness :
    (stripAt "@" = "" ∧ stripAt "@@a@@" = "a")
    ∧ ((read_config id [("@", "c1")] emptyKP).state.bindings = []
        ∧ (read_config id [("@", "c1")] emptyKP).state.modifier_bindings = [("", "c1")])
    ∧ ((read_config id [("@@a@@", "c2")] emptyKP).state.bindings = []
        ∧ (read_config id [("@@a@@", "c2")] emptyKP).state.modifier_bindings = [("a", "c2")]) :=
  ⟨⟨rfl, rfl⟩,
    at_wrapped_classification id "@" "c1" rfl,
    at_wrapped_classification id "@@a@@" "c2" rfl⟩
